import Mathlib

/-!
Verification of the dedup-and-routing core of the defense-news pipeline.

The Python dictionaries that `json.load` produces and the notifier state
functions manipulate are modelled by the `Json` type below; dictionary and
list primitives (`in`, `[...]`, `.get`, `.append`) are modelled by
`Except`-valued functions whose error results stand for raised Python
exceptions.
-/

namespace DefenseNews

/-- JSON values, as produced by `json.load` and consumed by `json.dump`.
Objects keep their key order (Python dicts are insertion-ordered). -/
inductive Json where
  | null
  | bool (b : Bool)
  | num (n : Int)
  | str (s : String)
  | arr (xs : List Json)
  | obj (kvs : List (String × Json))

/-- Python runtime errors that the embedded code can raise. -/
inductive PyErr where
  | typeError
  | attributeError
  | keyError
  | jsonDecodeError
  deriving DecidableEq

/-- Python `x == needle` for a string `needle`: string values compare by
value, every other JSON value compares unequal (no error). -/
def jsonStrEq (needle : String) : Json → Bool
  | .str t => needle = t
  | _ => false

/-- First value bound to a key in an object's key-value list. -/
def lookupKey : List (String × Json) → String → Option Json
  | [], _ => none
  | (k, v) :: rest, key => if k = key then some v else lookupKey rest key

/-- Python dict assignment `d[key] = v`: replace the value in place if the key
is present, otherwise append the new binding. -/
def setKey : List (String × Json) → String → Json → List (String × Json)
  | [], key, v => [(key, v)]
  | (k, w) :: rest, key, v =>
    if k = key then (k, v) :: rest else (k, w) :: setKey rest key v

/-- Does `hay` begin with `needle`? -/
def beginsWith : List Char → List Char → Bool
  | [], _ => true
  | _ :: _, [] => false
  | c :: cs, d :: ds => (c == d) && beginsWith cs ds

/-- Does `needle` occur contiguously inside `hay`? -/
def hasSubstring : List Char → List Char → Bool
  | needle, [] => needle.isEmpty
  | needle, d :: ds => beginsWith needle (d :: ds) || hasSubstring needle ds

/-- Python substring test `needle in hay` on strings. -/
def pySubstr (needle hay : String) : Bool := hasSubstring needle.data hay.data

/-- Python tests a string for membership with `needle in container`:
key membership for dicts, element-wise `==` for lists, substring search for
strings, and a `TypeError` for the remaining JSON values. -/
def pyContains (needle : String) : Json → Except PyErr Bool
  | .obj kvs => .ok (lookupKey kvs needle).isSome
  | .arr xs => .ok (xs.any (jsonStrEq needle))
  | .str s => .ok (pySubstr needle s)
  | _ => .error .typeError

/-- Python `container[key] = v` for a string key (a `TypeError` on anything
but a dict). -/
def pySetItem (j : Json) (key : String) (v : Json) : Except PyErr Json :=
  match j with
  | .obj kvs => .ok (.obj (setKey kvs key v))
  | _ => .error .typeError

/-- Python `container[key]` for a string key. -/
def pyGetItem (j : Json) (key : String) : Except PyErr Json :=
  match j with
  | .obj kvs =>
    match lookupKey kvs key with
    | some v => .ok v
    | none => .error .keyError
  | _ => .error .typeError

/-- Python `container.get(key, default)` (an `AttributeError` on anything but
a dict). -/
def pyGet (j : Json) (key : String) (dflt : Json) : Except PyErr Json :=
  match j with
  | .obj kvs => .ok ((lookupKey kvs key).getD dflt)
  | _ => .error .attributeError

/-- Python `container.append(v)` (an `AttributeError` on anything but a
list). -/
def pyAppend (j : Json) (v : Json) : Except PyErr Json :=
  match j with
  | .arr xs => .ok (.arr (xs ++ [v]))
  | _ => .error .attributeError

/-! ## Delivery state store (src/notifiers/init module)

State is kept in a JSON file. Timestamps (`datetime.now().isoformat()`)
enter the model as an explicit `now : String` parameter. -/

/-- Path of the persisted state file (`STATE_FILE` in the source). -/
def STATE_FILE : String := "data/.notification_state.json"

/-- What `open` plus `json.load` find in an existing state file: a valid JSON
document, or `invalid` for a file that is unreadable or holds text that is not
valid JSON (in which case `open`/`json.load` raises). -/
inductive FileContent where
  | json (j : Json)
  | invalid

/-- The fresh empty state dict built by `load_notification_state` when no
state file exists. -/
def newState (now : String) : Json :=
  .obj [("topics", .obj []), ("last_updated", .str now)]

/-- Embeds `_migrate_state_format`: pass a new-format state through
unchanged; rebuild both the legacy flat format and any unknown format as an
empty per-topic state, keeping a `last_updated` value when one is present.
The legacy branch and the unknown-format branch of the source build the same
fresh dict. -/
def _migrate_state_format (now : String) (state : Json) : Except PyErr Json :=
  match pyContains "topics" state with
  | .error e => .error e
  | .ok true => .ok state
  | .ok false =>
    match pyContains "slack_sent" state with
    | .error e => .error e
    | .ok s1 =>
      match pyContains "sheets_logged" state with
      | .error e => .error e
      | .ok s2 =>
        match pyGet state "last_updated" (.str now) with
        | .error e => .error e
        | .ok lu =>
          if s1 || s2 then .ok (.obj [("topics", .obj []), ("last_updated", lu)])
          else .ok (.obj [("topics", .obj []), ("last_updated", lu)])

/-- Embeds `load_notification_state`: when the state file exists its content
is parsed by `json.load` (raising on invalid content, with no handler in the
function) and migrated; when it does not exist a fresh empty state is
returned. -/
def load_notification_state (now : String) (file : Option FileContent) :
    Except PyErr Json :=
  match file with
  | some (.json j) => _migrate_state_format now j
  | some .invalid => .error .jsonDecodeError
  | none => .ok (newState now)

/-- File-system operations a save can perform. `write` stands for
`open(path, 'w')` followed by `json.dump(content, f)`; `rename` stands for an
atomic `os.rename`/`Path.rename` (present in the model so that the claimed
write-to-temp-then-rename pattern is expressible; the source never performs
one). -/
inductive FileOp where
  | mkdirParents (path : String)
  | write (path : String) (content : Json)
  | rename (src dst : String)

/-- Embeds `save_notification_state`: stamp `last_updated` into the state
dict (mutating the caller's dict), create the data directory, and write the
stamped state straight to `STATE_FILE`. The result is the stamped in-memory
state together with the file operations performed, in order. -/
def save_notification_state (now : String) (state : Json) :
    Except PyErr (Json × List FileOp) :=
  match pySetItem state "last_updated" (.str now) with
  | .error e => .error e
  | .ok stamped =>
    .ok (stamped, [.mkdirParents "data", .write STATE_FILE stamped])

/-! ### Crash semantics for a trace of file operations -/

/-- Content of one path on disk. -/
inductive FileState where
  | absent
  | valid (j : Json)
  | corrupt

/-- A file system assigns a state to every path. -/
def FS := String → FileState

/-- Effect of one completed file operation. A completed `write` leaves valid
content; `rename` moves content atomically. -/
def applyOp (fs : FS) : FileOp → FS
  | .mkdirParents _ => fs
  | .write p c => fun q => if q = p then .valid c else fs q
  | .rename src dst =>
    fun q => if q = dst then fs src else if q = src then .absent else fs q

/-- Effect of an operation interrupted by a crash: an interrupted plain
write leaves the target corrupt; `mkdir` and `rename` are atomic, so an
interrupted one simply has not happened. -/
def applyCrashed (fs : FS) : FileOp → FS
  | .write p _ => fun q => if q = p then .corrupt else fs q
  | _ => fs

/-- Run a whole trace of file operations. -/
def applyOps (fs : FS) (ops : List FileOp) : FS := ops.foldl applyOp fs

/-- The file system visible after a crash at position `k` of the trace: the
operations before `k` completed and the operation at `k` (when there is one)
was interrupted. -/
def crashState (fs : FS) (ops : List FileOp) (k : Nat) : FS :=
  match ops.get? k with
  | some op => applyCrashed (applyOps fs (ops.take k)) op
  | none => applyOps fs ops

/-- A file system whose only file is a valid state file holding `old`. -/
def fsWithState (old : Json) : FS :=
  fun p => if p = STATE_FILE then .valid old else .absent

/-- Crash-safety of a trace with respect to the state file: whatever valid
state file existed before, at every crash point the state file still holds
some valid JSON document. -/
def CrashSafe (ops : List FileOp) : Prop :=
  ∀ (old : Json) (k : Nat), ∃ j, crashState (fsWithState old) ops k STATE_FILE = .valid j

/-! ### Per-topic state tracking -/

/-- The fresh per-topic record the store creates on first reference. -/
def emptyTopicRecord : Json := .obj [("slack_sent", .arr []), ("sheets_logged", .arr [])]

/-- Sequencing of embedded Python statements: propagate a raised exception,
otherwise continue. -/
def andThen {α β : Type} (e : Except PyErr α) (f : α → Except PyErr β) :
    Except PyErr β :=
  match e with
  | .error err => .error err
  | .ok a => f a

/-- Embeds `_get_or_create_topic_state`: ensure `state["topics"]` and
`state["topics"][topic_id]` exist, then return the per-topic record together
with the updated state (the source returns a live reference into the state
dict; the model returns the updated dict alongside). -/
def _get_or_create_topic_state (topic_id : String) (state : Json) :
    Except PyErr (Json × Json) :=
  andThen (pyContains "topics" state) fun hasTopics =>
  andThen (if hasTopics then .ok state else pySetItem state "topics" (.obj []))
    fun state1 =>
  andThen (pyGetItem state1 "topics") fun topics =>
  andThen (pyContains topic_id topics) fun hasTopic =>
  andThen
    (if hasTopic then .ok state1
     else andThen (pySetItem topics topic_id emptyTopicRecord) fun topics1 =>
       pySetItem state1 "topics" topics1)
    fun state2 =>
  andThen (pyGetItem state2 "topics") fun topics2 =>
  andThen (pyGetItem topics2 topic_id) fun tstate =>
  .ok (tstate, state2)

/-- The two per-topic delivery ledgers. The spec calls them the notify (chat)
and log sinks; the source stores them under `slack_sent` and
`sheets_logged`. -/
inductive Sink where
  | notify
  | log
  deriving DecidableEq

/-- Key under which a sink's ledger is stored in a per-topic record. -/
def Sink.key : Sink → String
  | .notify => "slack_sent"
  | .log => "sheets_logged"

/-- Common body of `is_topic_slack_sent` and `is_topic_sheets_logged`
(identical in the source up to the ledger key): query
`guid in topic_state.get(key, [])` and hand back the possibly grown state. -/
def is_topic_delivered (key topic_id guid : String) (state : Json) :
    Except PyErr (Bool × Json) :=
  andThen (_get_or_create_topic_state topic_id state) fun (tstate, state1) =>
  andThen (pyGet tstate key (.arr [])) fun lst =>
  andThen (pyContains guid lst) fun b =>
  .ok (b, state1)

/-- The source mutates the per-topic record through the reference returned by
`_get_or_create_topic_state`; in the model the updated record is written back
into the state's topics map. -/
def writeTopicRecord (topic_id : String) (tstate state : Json) :
    Except PyErr Json :=
  andThen (pyGetItem state "topics") fun topics =>
  andThen (pySetItem topics topic_id tstate) fun topics1 =>
  pySetItem state "topics" topics1

/-- Common body of `mark_topic_slack_sent` and `mark_topic_sheets_logged`
(identical in the source up to the ledger key): create the ledger list if
missing, then append the guid unless it is already present. -/
def mark_topic_delivered (key topic_id guid : String) (state : Json) :
    Except PyErr Json :=
  andThen (_get_or_create_topic_state topic_id state) fun (tstate, state1) =>
  andThen (pyContains key tstate) fun hasKey =>
  andThen (if hasKey then .ok tstate else pySetItem tstate key (.arr []))
    fun tstate1 =>
  andThen (pyGetItem tstate1 key) fun lst =>
  andThen (pyContains guid lst) fun isIn =>
  if isIn then
    writeTopicRecord topic_id tstate1 state1
  else
    andThen (pyAppend lst (.str guid)) fun lst1 =>
    andThen (pySetItem tstate1 key lst1) fun tstate2 =>
    writeTopicRecord topic_id tstate2 state1

/-- Embeds `is_topic_slack_sent`. -/
def is_topic_slack_sent (topic_id guid : String) (state : Json) :
    Except PyErr (Bool × Json) :=
  is_topic_delivered "slack_sent" topic_id guid state

/-- Embeds `mark_topic_slack_sent`. -/
def mark_topic_slack_sent (topic_id guid : String) (state : Json) :
    Except PyErr Json :=
  mark_topic_delivered "slack_sent" topic_id guid state

/-- Embeds `is_topic_sheets_logged`. -/
def is_topic_sheets_logged (topic_id guid : String) (state : Json) :
    Except PyErr (Bool × Json) :=
  is_topic_delivered "sheets_logged" topic_id guid state

/-- Embeds `mark_topic_sheets_logged`. -/
def mark_topic_sheets_logged (topic_id guid : String) (state : Json) :
    Except PyErr Json :=
  mark_topic_delivered "sheets_logged" topic_id guid state

/-- Spec-level query used by `isDelivered`-style claims: the delivered query
of the given sink kind. -/
def isDelivered (sink : Sink) (topic_id guid : String) (state : Json) :
    Except PyErr (Bool × Json) :=
  match sink with
  | .notify => is_topic_slack_sent topic_id guid state
  | .log => is_topic_sheets_logged topic_id guid state

/-- Spec-level update used by `markDelivered`-style claims: the marking
function of the given sink kind. -/
def markDelivered (sink : Sink) (topic_id guid : String) (state : Json) :
    Except PyErr Json :=
  match sink with
  | .notify => mark_topic_slack_sent topic_id guid state
  | .log => mark_topic_sheets_logged topic_id guid state

/-! ### Pure accessors and well-formedness, for theorem statements -/

/-- The ledger list a state records under `topics[t][key]`; empty whenever
any level is missing or has an unexpected shape. -/
def sinkList (key t : String) (state : Json) : List Json :=
  match state with
  | .obj kvs =>
    match lookupKey kvs "topics" with
    | some (.obj ts) =>
      match lookupKey ts t with
      | some (.obj tr) =>
        match lookupKey tr key with
        | some (.arr xs) => xs
        | _ => []
      | _ => []
    | _ => []
  | _ => []

/-- Is `g` recorded as delivered for topic `t` under ledger key `key`? -/
def topicFlag (key t g : String) (state : Json) : Bool :=
  (sinkList key t state).any (jsonStrEq g)

/-- The fields of the per-topic record that marking operates on: the existing
record's fields when topic `t` has a dict record, the fields of a fresh empty
record otherwise. -/
def recordFields (ts : List (String × Json)) (t : String) :
    List (String × Json) :=
  match lookupKey ts t with
  | some (.obj tr) => tr
  | _ => [("slack_sent", .arr []), ("sheets_logged", .arr [])]

/-- A per-topic record of the expected shape: a dict whose `slack_sent` and
`sheets_logged` entries, when present, are lists. -/
def topicRecordWF : Json → Bool
  | .obj tr =>
    (match lookupKey tr "slack_sent" with
     | none => true
     | some (.arr _) => true
     | some _ => false) &&
    (match lookupKey tr "sheets_logged" with
     | none => true
     | some (.arr _) => true
     | some _ => false)
  | _ => false

/-- A state of the expected shape: a dict whose `topics` entry is a dict all
of whose values are well-formed per-topic records. -/
def stateWF : Json → Bool
  | .obj kvs =>
    match lookupKey kvs "topics" with
    | some (.obj ts) => ts.all fun kv => topicRecordWF kv.2
    | _ => false
  | _ => false

/-! ## Data model of analyzed items and topics

Items come out of the scraper/analyzer with string-valued text fields and an
attached analysis dict; topics come out of the topic manager. Field presence
is modelled with `Option`. -/

/-- The analysis dict the analyzer attaches to an item (only the fields the
routing core reads). -/
structure Analysis where
  score : Option Int
  summary : Option String
  deriving DecidableEq

/-- An analyzed item (only the fields the routing core reads). -/
structure Item where
  guid : String
  title : Option String
  description : Option String
  analysis : Option Analysis
  deriving DecidableEq

/-- A topic record (only the fields the routing core reads). -/
structure Topic where
  id : String
  name : String
  sheet_name : String
  keywords : Option (List String)
  score_threshold : Option Int
  slack_webhook : Option String
  deriving DecidableEq

/-- Python `s.lower()` (ASCII case folding; the repository's keywords and
feed text are ASCII). -/
def pyLower (s : String) : String := ⟨s.data.map Char.toLower⟩

/-- Characters stripped by Python `str.strip()`. -/
def pyIsWs (c : Char) : Bool :=
  c == ' ' || c == '\t' || c == '\n' || c == '\r' || c == '\x0b' || c == '\x0c'

/-- Python `s.strip()`. -/
def pyStrip (s : String) : String :=
  ⟨((s.data.dropWhile pyIsWs).reverse.dropWhile pyIsWs).reverse⟩

/-! ## Keyword matching engine (src/keyword_matcher.py) -/

/-- The searchable text `matches_topic` builds: title, description and the
analysis summary, each followed by a space, with absent or falsy (empty)
title/description skipped — the source checks truthiness for those two but
only presence for the summary — then lowercased and stripped. -/
def searchableText (item : Item) : String :=
  let text := ""
  let text := match item.title with
    | some s => if !s.isEmpty then text ++ s ++ " " else text
    | none => text
  let text := match item.description with
    | some s => if !s.isEmpty then text ++ s ++ " " else text
    | none => text
  let text := match item.analysis with
    | some a =>
      match a.summary with
      | some s => text ++ s ++ " "
      | none => text
    | none => text
  pyStrip (pyLower text)

/-- Embeds `matches_topic`: an empty keyword list never matches; otherwise
the item matches when some lowercased keyword occurs in the searchable
text. -/
def matches_topic (item : Item) (keywords : List String) : Bool :=
  if keywords.isEmpty then false
  else keywords.any fun k => pySubstr (pyLower k) (searchableText item)

/-- The score `filter_items_by_topic` reads:
`item.get('analysis', {}).get('score', 0)`. -/
def itemScore (item : Item) : Int :=
  match item.analysis with
  | some a => a.score.getD 0
  | none => 0

/-- The per-item test applied by the loop body of `filter_items_by_topic`:
keywords must match and the score must meet the topic's threshold
(default 5). -/
def qualifies (item : Item) (t : Topic) : Bool :=
  matches_topic item (t.keywords.getD []) &&
    decide (t.score_threshold.getD 5 ≤ itemScore item)

/-- Embeds `filter_items_by_topic`; `none` stands for the falsy (absent or
empty) topic argument, on which the source returns `[]` at once. -/
def filter_items_by_topic (items : List Item) (topic : Option Topic) :
    List Item :=
  match topic with
  | none => []
  | some t =>
    if items.isEmpty then []
    else items.filter fun item => qualifies item t

/-! ## Sink adapters (src/notifiers/sheets_logger.py, slack_notifier.py)

The adapters wrap their network call in a broad try/except and reduce it to
a boolean; the outcome of the underlying call enters the model as an explicit
`Except` argument, with an error standing for a raised exception. -/

/-- Embeds `append_item_to_sheet`: `True` when the underlying
`worksheet.append_row` call returns, `False` when it raises (every exception
is caught). -/
def append_item_to_sheet (outcome : Except PyErr Unit) : Bool :=
  match outcome with
  | .ok _ => true
  | .error _ => false

/-- Embeds `send_slack_notification`: `True` exactly when the webhook post
returns status 200; a non-200 status or a raised exception gives `False`
(every exception is caught). -/
def send_slack_notification (outcome : Except PyErr Int) : Bool :=
  match outcome with
  | .ok status => status == 200
  | .error _ => false

/-! ## Notification router (src/pipeline.py, step 3 of an iteration) -/

/-- The external world one iteration talks to, indexed by topic id and item
guid: the worksheet lookup for a topic (which may raise), the outcome of the
underlying sheet append, and the outcome of the underlying Slack webhook
post. -/
structure SinkEnv where
  worksheet : String → Except Unit Unit
  sheetAppend : String → String → Except PyErr Unit
  slackPost : String → String → Except PyErr Int

/-- Truthiness of `topic.get('slack_webhook')`: present and non-empty. -/
def webhookConfigured (t : Topic) : Bool :=
  match t.slack_webhook with
  | some s => !s.isEmpty
  | none => false

/-- Did the worksheet lookup for a topic succeed (no exception)? -/
def wsOk (env : SinkEnv) (t : Topic) : Bool :=
  match env.worksheet t.sheet_name with
  | .ok _ => true
  | .error _ => false

/-- The success bit the router sees from one delivery attempt of a (topic,
sink, item) triple, as the adapters report it. -/
def sinkSuccess (env : SinkEnv) (sink : Sink) (tid g : String) : Bool :=
  match sink with
  | .log => append_item_to_sheet (env.sheetAppend tid g)
  | .notify => send_slack_notification (env.slackPost tid g)

/-- Does processing `item` for topic `t` deliver the triple
(`sink`, `tid`, `g`)? It must be this item's guid and this topic's id; the
chat sink additionally needs a configured webhook and a score meeting the
threshold; and the adapter must report success. The condition does not
depend on the delivery state: an already-delivered triple satisfying it was
simply delivered earlier. -/
def deliveryCond (env : SinkEnv) (t : Topic) (item : Item)
    (sink : Sink) (tid g : String) : Bool :=
  decide (tid = t.id) && decide (g = item.guid) &&
    (match sink with
     | .log => sinkSuccess env .log t.id item.guid
     | .notify =>
       webhookConfigured t &&
         decide (t.score_threshold.getD 5 ≤ itemScore item) &&
         sinkSuccess env .notify t.id item.guid)

/-- The item fields the router body reads unconditionally (their absence
raises): a score inside the analysis dict, and a title. -/
def itemComplete (item : Item) : Bool :=
  (match item.analysis with
   | some a => a.score.isSome
   | none => false) && item.title.isSome

/-- The body of the `for item in matching_items` loop (pipeline.py
180-205): read `item['guid']`, `item['analysis']['score']` and
`item['title']` (raising when absent), log to the sheet unless already
logged, then notify Slack when a webhook is configured, the score meets the
threshold and the item is not already notified. -/
def processItem (env : SinkEnv) (t : Topic) (item : Item) (state : Json) :
    Except PyErr Json :=
  let guid := item.guid
  andThen
    (match item.analysis with
     | some a =>
       match a.score with
       | some sc => Except.ok sc
       | none => Except.error PyErr.keyError
     | none => Except.error PyErr.keyError) fun score =>
  andThen
    (match item.title with
     | some s => Except.ok s
     | none => Except.error PyErr.keyError) fun _ =>
  andThen (is_topic_sheets_logged t.id guid state) fun (logged, state) =>
  andThen
    (if !logged then
       if append_item_to_sheet (env.sheetAppend t.id guid) then
         mark_topic_sheets_logged t.id guid state
       else .ok state
     else .ok state) fun state =>
  if webhookConfigured t then
    if t.score_threshold.getD 5 ≤ score then
      andThen (is_topic_slack_sent t.id guid state) fun (sent, state) =>
      if !sent then
        if send_slack_notification (env.slackPost t.id guid) then
          mark_topic_slack_sent t.id guid state
        else .ok state
      else .ok state
    else .ok state
  else .ok state

/-- The `for item in matching_items` loop itself, in list order. -/
def runItems (env : SinkEnv) (t : Topic) : List Item → Json → Except PyErr Json
  | [], state => .ok state
  | item :: rest, state =>
    andThen (processItem env t item state) fun state1 => runItems env t rest state1

/-- The body of the `for topic in topics` loop (pipeline.py 147-205):
ensure the topic has a state entry, filter the batch, skip the topic when
nothing matches or the worksheet lookup raises, and otherwise process every
matching item in order. -/
def processTopic (env : SinkEnv) (items : List Item) (state : Json)
    (t : Topic) : Except PyErr Json :=
  andThen (_get_or_create_topic_state t.id state) fun (_, state) =>
  let matching := filter_items_by_topic items (some t)
  if matching.isEmpty then .ok state
  else
    match env.worksheet t.sheet_name with
    | .error _ => .ok state
    | .ok _ => runItems env t matching state

/-- Step 3 of one iteration: run the router over every active topic in
order. -/
def processTopics (env : SinkEnv) (items : List Item) :
    List Topic → Json → Except PyErr Json
  | [], state => .ok state
  | t :: rest, state =>
    andThen (processTopic env items state t) fun state1 =>
      processTopics env items rest state1

/-! ## Polling orchestrator boundary (src/pipeline.py main loop) -/

/-- Poll interval from the environment:
`int(os.getenv('POLL_INTERVAL_SECONDS', 300))`. -/
def POLL_INTERVAL (env : Option Nat) : Nat := env.getD 300

/-- The fixed cooldown slept after a failed iteration (pipeline.py 223). -/
def ERROR_COOLDOWN : Nat := 60

/-- How one iteration of the body ends: normally, with a raised error, or
with a KeyboardInterrupt. -/
inductive IterOutcome where
  | ok
  | exn
  | keyboardInterrupt
  deriving DecidableEq

/-- What the loop does next. -/
inductive LoopAction where
  | continueAfter (sleepSeconds : Nat)
  | stop
  deriving DecidableEq

/-- The iteration boundary of the main loop (pipeline.py 212-228): an
exception is caught, reported and followed by a fixed 60-second sleep before
the next attempt; a KeyboardInterrupt saves state and leaves the loop; a
normal iteration sleeps the poll interval. -/
def handleIteration (pollEnv : Option Nat) : IterOutcome → LoopAction
  | .ok => .continueAfter (POLL_INTERVAL pollEnv)
  | .exn => .continueAfter 60
  | .keyboardInterrupt => .stop

/-! ## Claim statements quoted from the spec, and concrete inputs

The `...Claim` propositions below formalise spec sentences that turn out to
be false of the code; each is refuted at a concrete input further down. -/

/-- The save behaviour claimed by the spec: every successful save stamps
`last_updated` with the save time and performs its write through a temp file
followed by an atomic rename onto `STATE_FILE`, making the trace
crash-safe. -/
def SaveAtomicClaim : Prop :=
  ∀ (now : String) (state stamped : Json) (ops : List FileOp),
    save_notification_state now state = .ok (stamped, ops) →
    (∃ tmp content, tmp ≠ STATE_FILE ∧
        FileOp.write tmp content ∈ ops ∧ FileOp.rename tmp STATE_FILE ∈ ops) ∧
    CrashSafe ops

/-- The tolerance property the spec asserts of `load_notification_state`:
no content of the state file, valid or not, makes the load raise. -/
def LoadNeverRaises : Prop :=
  ∀ (now : String) (file : Option FileContent),
    ∃ st, load_notification_state now file = .ok st

/-- The round-trip property the spec asserts: saving a freshly loaded
well-formed state writes back exactly the loaded file content. -/
def SaveLoadFixedPoint : Prop :=
  ∀ (now1 now2 : String) (j st stamped : Json) (ops : List FileOp),
    stateWF j = true →
    load_notification_state now1 (some (.json j)) = .ok st →
    save_notification_state now2 st = .ok (stamped, ops) →
    FileOp.write STATE_FILE j ∈ ops

/-- The cooldown property the spec asserts: after an in-iteration exception
the loop keeps going and sleeps a fixed cooldown that is different from and
shorter than the configured poll interval, whatever that configuration is. -/
def IterationCooldownClaim : Prop :=
  ∀ pollEnv : Option Nat,
    handleIteration pollEnv .exn = .continueAfter ERROR_COOLDOWN ∧
    handleIteration pollEnv .exn ≠ .stop ∧
    ERROR_COOLDOWN ≠ POLL_INTERVAL pollEnv ∧
    ERROR_COOLDOWN < POLL_INTERVAL pollEnv

/-- The idempotence-and-no-duplicates property the spec asserts of the
marking functions, for every state value. -/
def MarkExactlyOnceClaim : Prop :=
  ∀ (sink : Sink) (t g : String) (state state1 : Json),
    markDelivered sink t g state = .ok state1 →
    markDelivered sink t g state1 = .ok state1 ∧
    (∃ state2, isDelivered sink t g state1 = .ok (true, state2)) ∧
    (sinkList sink.key t state1).countP (jsonStrEq g) = 1

/-- A state whose ledger for topic `t` already holds the guid `g` twice —
shaped as a hand-edited or corrupted state file would be after load. -/
def dupState : Json :=
  .obj [("topics", .obj [("t", .obj [("slack_sent", .arr [.str "g", .str "g"]),
    ("sheets_logged", .arr [])])])]

/-- Concrete analyzed item used by witnesses. -/
def wItem : Item :=
  { guid := "G1"
    title := some "Nuclear Weapons Development in Iran"
    description := some "New report on Iranian nuclear enrichment program"
    analysis := some { score := some 8
                       summary := some "Iran continues nuclear development despite sanctions" } }

/-- Concrete analyzed item with no analysis attached (score treated as 0). -/
def wItemNoScore : Item :=
  { guid := "G2"
    title := some "Routine base maintenance announcement"
    description := none
    analysis := none }

/-- Concrete topic used by witnesses. -/
def wTopic : Topic :=
  { id := "t1"
    name := "Nuclear"
    sheet_name := "Nuclear"
    keywords := some ["nuclear", "iran"]
    score_threshold := some 5
    slack_webhook := some "https://hooks.example/T1" }

/-- Witness world in which every sink call succeeds. -/
def envAllOk : SinkEnv :=
  { worksheet := fun _ => .ok ()
    sheetAppend := fun _ _ => .ok ()
    slackPost := fun _ _ => .ok 200 }

/-- Witness world identical to `envAllOk` except that the sheet append of
topic `t1`, item `G1` raises. -/
def envSheetFails : SinkEnv :=
  { worksheet := fun _ => .ok ()
    sheetAppend := fun tid g =>
      if tid = "t1" ∧ g = "G1" then .error .typeError else .ok ()
    slackPost := fun _ _ => .ok 200 }

/-! ## Basic lemmas about the dictionary primitives -/

theorem andThen_ok {α β : Type} (a : α) (f : α → Except PyErr β) :
    andThen (.ok a) f = f a := rfl

theorem andThen_error {α β : Type} (err : PyErr) (f : α → Except PyErr β) :
    andThen (.error err) f = .error err := rfl

theorem lookupKey_setKey_self (kvs : List (String × Json)) (k : String)
    (v : Json) : lookupKey (setKey kvs k v) k = some v := by
  induction kvs with
  | nil => simp [setKey, lookupKey]
  | cons kv rest ih =>
    obtain ⟨a, b⟩ := kv
    by_cases h : a = k <;> simp [setKey, lookupKey, h, ih]

theorem lookupKey_setKey_ne (kvs : List (String × Json)) (k k' : String)
    (v : Json) (h : k' ≠ k) :
    lookupKey (setKey kvs k v) k' = lookupKey kvs k' := by
  induction kvs with
  | nil => simp [setKey, lookupKey, h, Ne.symm h]
  | cons kv rest ih =>
    obtain ⟨a, b⟩ := kv
    by_cases hak : a = k
    · subst hak
      have hk : a ≠ k' := fun hh => h hh.symm
      simp [setKey, lookupKey, hk]
    · by_cases hak' : a = k' <;> simp [setKey, lookupKey, hak, hak', h, ih]

theorem setKey_self_of_lookup (kvs : List (String × Json)) (k : String)
    (v : Json) (h : lookupKey kvs k = some v) : setKey kvs k v = kvs := by
  induction kvs with
  | nil => simp [lookupKey] at h
  | cons kv rest ih =>
    obtain ⟨a, b⟩ := kv
    by_cases hak : a = k
    · subst hak
      simp [lookupKey] at h
      simp [setKey, h]
    · simp [lookupKey, hak] at h
      simp [setKey, hak, ih h]

theorem setKey_setKey (kvs : List (String × Json)) (k : String) (v w : Json) :
    setKey (setKey kvs k v) k w = setKey kvs k w := by
  induction kvs with
  | nil => simp [setKey]
  | cons kv rest ih =>
    obtain ⟨a, b⟩ := kv
    by_cases h : a = k <;> simp [setKey, h, ih]

theorem lookupKey_mem (kvs : List (String × Json)) (k : String) (v : Json)
    (h : lookupKey kvs k = some v) : (k, v) ∈ kvs := by
  induction kvs with
  | nil => simp [lookupKey] at h
  | cons kv rest ih =>
    obtain ⟨a, b⟩ := kv
    by_cases hak : a = k
    · subst hak
      simp [lookupKey] at h
      simp [h]
    · simp [lookupKey, hak] at h
      exact List.mem_cons_of_mem _ (ih h)

theorem mem_setKey (kvs : List (String × Json)) (k : String) (v : Json)
    (p : String × Json) (h : p ∈ setKey kvs k v) : p ∈ kvs ∨ p = (k, v) := by
  induction kvs with
  | nil =>
    simp [setKey] at h
    exact Or.inr h
  | cons kv rest ih =>
    obtain ⟨a, b⟩ := kv
    by_cases hak : a = k
    · subst hak
      simp [setKey] at h
      rcases h with h | h
      · exact Or.inr (by simp [h])
      · exact Or.inl (List.mem_cons_of_mem _ h)
    · simp [setKey, hak] at h
      rcases h with h | h
      · exact Or.inl (by simp [h])
      · rcases ih h with h1 | h1
        · exact Or.inl (List.mem_cons_of_mem _ h1)
        · exact Or.inr h1

/-! ## Claim C1: how save writes the state file -/

/-- C1 counterexample: saving any state — here the fresh empty state — emits
no rename at all; the trace is a direct in-place write of `STATE_FILE`. -/
theorem save_atomic_claim_false : ¬ SaveAtomicClaim := by
  intro h
  obtain ⟨⟨tmp, content, _hne, _hw, hr⟩, _⟩ :=
    h "B" (newState "A") (newState "B")
      [.mkdirParents "data", .write STATE_FILE (newState "B")] rfl
  simp [List.mem_cons] at hr

/-- C1 (amended): for every dict state, save stamps `last_updated := now`
into the state and then writes the stamped state directly to `STATE_FILE`
(a mkdir followed by one plain in-place write — no temp file, no rename), a
trace that is not crash-safe: a crash in the middle of the write leaves the
state file corrupt. -/
theorem save_stamps_but_writes_in_place (now : String)
    (kvs : List (String × Json)) :
    save_notification_state now (.obj kvs) =
      .ok (.obj (setKey kvs "last_updated" (.str now)),
        [.mkdirParents "data",
         .write STATE_FILE (.obj (setKey kvs "last_updated" (.str now)))]) ∧
    lookupKey (setKey kvs "last_updated" (.str now)) "last_updated" =
      some (.str now) ∧
    ¬ CrashSafe [.mkdirParents "data",
        .write STATE_FILE (.obj (setKey kvs "last_updated" (.str now)))] := by
  refine ⟨rfl, lookupKey_setKey_self kvs _ _, ?_⟩
  intro h
  obtain ⟨j, hj⟩ := h Json.null 1
  simp [crashState, applyOps, applyOp, applyCrashed, fsWithState] at hj

/-! ## Claim C2: loading a corrupt state file -/

/-- C2 counterexample: a state file whose content is unreadable or not valid
JSON makes `load_notification_state` raise (the `json.load` error has no
handler). -/
theorem load_never_raises_false : ¬ LoadNeverRaises := by
  intro h
  obtain ⟨st, hst⟩ := h "T" (some .invalid)
  simp [load_notification_state] at hst

/-- C2 (amended): an absent state file yields the fresh empty state, but a
corrupt or unreadable state file makes `load_notification_state` raise the
`json.load` error; `main` calls the load outside its per-iteration handler,
so that error halts the process rather than yielding the empty state. -/
theorem load_absent_empty_but_corrupt_raises (now : String) :
    load_notification_state now none = .ok (newState now) ∧
    load_notification_state now (some .invalid) = .error .jsonDecodeError :=
  ⟨rfl, rfl⟩

/-! ## Claim C7: legacy flat state files -/

/-- C7: loading a legacy flat state file — top-level `slack_sent` or
`sheets_logged` lists and no `topics` key — does not raise and yields a state
whose per-topic map is empty: the flat sets are discarded wholesale. -/
theorem legacy_flat_file_migrates_to_empty_topics (now : String)
    (kvs : List (String × Json))
    (hNoTopics : lookupKey kvs "topics" = none)
    (hFlat : (lookupKey kvs "slack_sent").isSome = true ∨
      (lookupKey kvs "sheets_logged").isSome = true) :
    load_notification_state now (some (.json (.obj kvs))) =
      .ok (.obj [("topics", .obj []),
        ("last_updated", (lookupKey kvs "last_updated").getD (.str now))]) := by
  rcases hFlat with h | h <;>
    simp [load_notification_state, _migrate_state_format, pyContains, pyGet,
      hNoTopics, h]

/-- C7 witness at a concrete legacy file. -/
theorem legacy_flat_file_migrates_witness :
    lookupKey [("slack_sent", Json.arr [.str "g1"])] "topics" = none ∧
    (lookupKey [("slack_sent", Json.arr [.str "g1"])] "slack_sent").isSome = true ∧
    load_notification_state "T"
        (some (.json (.obj [("slack_sent", .arr [.str "g1"])]))) =
      .ok (.obj [("topics", .obj []), ("last_updated", .str "T")]) := by
  refine ⟨rfl, rfl, ?_⟩
  simpa using
    legacy_flat_file_migrates_to_empty_topics "T"
      [("slack_sent", Json.arr [.str "g1"])] rfl (Or.inl rfl)

/-! ## Claim C8: the save-after-load round trip -/

/-- C8 counterexample: reloading and saving the empty state stamped at time
A writes content stamped at the save time B, not the original file
content. -/
theorem save_load_fixed_point_false : ¬ SaveLoadFixedPoint := by
  intro h
  have hmem :=
    h "X" "B" (newState "A") (newState "A") (newState "B")
      [.mkdirParents "data", .write STATE_FILE (newState "B")] rfl rfl rfl
  simp [List.mem_cons, newState, STATE_FILE] at hmem

/-- C8 (amended): for a well-formed state file, load returns the file
content unchanged and save writes it back with exactly one difference — the
`last_updated` field is restamped with the save time; every other field is
written back unchanged. -/
theorem save_load_roundtrip_drifts_only_timestamp (now1 now2 : String)
    (kvs : List (String × Json))
    (hWF : (lookupKey kvs "topics").isSome = true) :
    load_notification_state now1 (some (.json (.obj kvs))) = .ok (.obj kvs) ∧
    save_notification_state now2 (.obj kvs) =
      .ok (.obj (setKey kvs "last_updated" (.str now2)),
        [.mkdirParents "data",
         .write STATE_FILE (.obj (setKey kvs "last_updated" (.str now2)))]) ∧
    lookupKey (setKey kvs "last_updated" (.str now2)) "last_updated" =
      some (.str now2) ∧
    (∀ k, k ≠ "last_updated" →
      lookupKey (setKey kvs "last_updated" (.str now2)) k = lookupKey kvs k) := by
  refine ⟨?_, rfl, lookupKey_setKey_self kvs _ _,
    fun k hk => lookupKey_setKey_ne kvs _ k _ hk⟩
  simp [load_notification_state, _migrate_state_format, pyContains, hWF]

/-- C8 witness at a concrete well-formed state file. -/
theorem save_load_roundtrip_witness :
    (lookupKey [("topics", Json.obj []), ("last_updated", Json.str "A")]
      "topics").isSome = true ∧
    load_notification_state "X"
        (some (.json (.obj [("topics", .obj []), ("last_updated", .str "A")]))) =
      .ok (.obj [("topics", .obj []), ("last_updated", .str "A")]) ∧
    save_notification_state "B"
        (.obj [("topics", .obj []), ("last_updated", .str "A")]) =
      .ok (.obj [("topics", .obj []), ("last_updated", .str "B")],
        [.mkdirParents "data",
         .write STATE_FILE (.obj [("topics", .obj []), ("last_updated", .str "B")])]) := by
  have h := save_load_roundtrip_drifts_only_timestamp "X" "B"
    [("topics", Json.obj []), ("last_updated", Json.str "A")] rfl
  exact ⟨rfl, h.1, by simpa [setKey] using h.2.1⟩

/-! ## Claim C9: the iteration-boundary cooldown -/

/-- C9 counterexample: with `POLL_INTERVAL_SECONDS=30` the fixed 60-second
cooldown is longer than the configured poll interval, not shorter. -/
theorem iteration_cooldown_claim_false : ¬ IterationCooldownClaim := by
  intro h
  have h30 := (h (some 30)).2.2.2
  simp [ERROR_COOLDOWN, POLL_INTERVAL] at h30

/-- C9 (amended): every exception inside an iteration is caught at the
iteration boundary and followed by a fixed 60-second cooldown before the
next attempt — the loop never stops on an exception — and that cooldown is
distinct from and shorter than the default 300-second poll interval (though
not necessarily shorter than an arbitrarily configured one). -/
theorem iteration_error_cooldown (pollEnv : Option Nat) :
    handleIteration pollEnv .exn = .continueAfter ERROR_COOLDOWN ∧
    handleIteration pollEnv .exn ≠ .stop ∧
    ERROR_COOLDOWN ≠ POLL_INTERVAL none ∧
    ERROR_COOLDOWN < POLL_INTERVAL none :=
  ⟨rfl, by simp [handleIteration], by decide, by decide⟩

/-! ## Claim C5: keyword matching -/

/-- C5: over the lowercase keywords of the data model, `matches_topic` holds
exactly when at least one keyword occurs as a substring of the lowercase
searchable text built from the item's title, description and analysis
summary (absent or empty fields contribute nothing, without error), and an
empty keyword set never matches. -/
theorem matches_topic_iff_keyword_substring (item : Item)
    (keywords : List String) (hLower : ∀ k ∈ keywords, pyLower k = k) :
    (matches_topic item keywords = true ↔
      ∃ k ∈ keywords, pySubstr k (searchableText item) = true) ∧
    matches_topic item [] = false := by
  refine ⟨?_, rfl⟩
  unfold matches_topic
  by_cases he : keywords.isEmpty
  · rw [List.isEmpty_iff] at he
    subst he
    simp
  · simp only [he, if_false, Bool.false_eq_true, List.any_eq_true]
    constructor
    · rintro ⟨k, hk, hsub⟩
      exact ⟨k, hk, by rwa [hLower k hk] at hsub⟩
    · rintro ⟨k, hk, hsub⟩
      exact ⟨k, hk, by rwa [hLower k hk]⟩

/-- C5 witness at a concrete item and keyword list. -/
theorem matches_topic_iff_witness :
    (∀ k ∈ ["nuclear", "iran"], pyLower k = k) ∧
    ((matches_topic wItem ["nuclear", "iran"] = true ↔
      ∃ k ∈ ["nuclear", "iran"], pySubstr k (searchableText wItem) = true) ∧
      matches_topic wItem [] = false) :=
  ⟨by decide, matches_topic_iff_keyword_substring wItem ["nuclear", "iran"]
    (by decide)⟩

/-! ## Claim C6: the score threshold -/

/-- C6: an item whose analysis score (0 when missing) is strictly below the
topic's score threshold (default 5) never qualifies, and is excluded from
the topic's matching set whatever its keywords say. -/
theorem low_score_item_excluded (item : Item) (t : Topic)
    (h : itemScore item < t.score_threshold.getD 5) :
    qualifies item t = false ∧
    ∀ items, item ∉ filter_items_by_topic items (some t) := by
  have hq : qualifies item t = false := by
    unfold qualifies
    have hd : decide (t.score_threshold.getD 5 ≤ itemScore item) = false := by
      simp only [decide_eq_false_iff_not, not_le]
      exact h
    simp [hd]
  refine ⟨hq, fun items hmem => ?_⟩
  simp only [filter_items_by_topic] at hmem
  by_cases he : items.isEmpty
  · simp [he] at hmem
  · simp only [he, Bool.false_eq_true, if_false] at hmem
    rw [List.mem_filter] at hmem
    rw [hq] at hmem
    exact Bool.noConfusion hmem.2

/-- C6 witness: an item with no analysis (score 0) against a threshold-5
topic. -/
theorem low_score_item_excluded_witness :
    itemScore wItemNoScore < wTopic.score_threshold.getD 5 ∧
    (qualifies wItemNoScore wTopic = false ∧
      ∀ items, wItemNoScore ∉ filter_items_by_topic items (some wTopic)) :=
  ⟨by decide, low_score_item_excluded wItemNoScore wTopic (by decide)⟩

/-! ## Characterisation of the per-topic state operations -/

theorem topicRecordWF_empty : topicRecordWF emptyTopicRecord = true := rfl

theorem topicRecordWF_elim (j : Json) (h : topicRecordWF j = true) :
    ∃ tr, j = .obj tr ∧
      (lookupKey tr "slack_sent" = none ∨
        ∃ xs, lookupKey tr "slack_sent" = some (.arr xs)) ∧
      (lookupKey tr "sheets_logged" = none ∨
        ∃ xs, lookupKey tr "sheets_logged" = some (.arr xs)) := by
  cases j with
  | obj tr =>
    refine ⟨tr, rfl, ?_, ?_⟩
    · simp only [topicRecordWF, Bool.and_eq_true] at h
      cases hs : lookupKey tr "slack_sent" with
      | none => exact Or.inl rfl
      | some v =>
        have h1 := h.1
        rw [hs] at h1
        cases v <;> simp at h1
        exact Or.inr ⟨_, rfl⟩
    · simp only [topicRecordWF, Bool.and_eq_true] at h
      cases hs : lookupKey tr "sheets_logged" with
      | none => exact Or.inl rfl
      | some v =>
        have h2 := h.2
        rw [hs] at h2
        cases v <;> simp at h2
        exact Or.inr ⟨_, rfl⟩
  | null => simp [topicRecordWF] at h
  | bool b => simp [topicRecordWF] at h
  | num n => simp [topicRecordWF] at h
  | str s => simp [topicRecordWF] at h
  | arr xs => simp [topicRecordWF] at h

theorem getOrCreate_eq (t : String) (kvs ts : List (String × Json))
    (h : lookupKey kvs "topics" = some (.obj ts)) :
    _get_or_create_topic_state t (.obj kvs) =
      match lookupKey ts t with
      | some tst => .ok (tst, .obj kvs)
      | none =>
        .ok (emptyTopicRecord,
          .obj (setKey kvs "topics" (.obj (setKey ts t emptyTopicRecord)))) := by
  cases hts : lookupKey ts t with
  | some tst =>
    simp [_get_or_create_topic_state, pyContains, pyGetItem, pySetItem, h, hts,
      andThen]
  | none =>
    simp [_get_or_create_topic_state, pyContains, pyGetItem, pySetItem, h, hts,
      andThen, lookupKey_setKey_self]

theorem topicRecordWF_key (sink : Sink) (tr : List (String × Json))
    (h : topicRecordWF (.obj tr) = true) :
    lookupKey tr sink.key = none ∨
      ∃ xs, lookupKey tr sink.key = some (.arr xs) := by
  obtain ⟨tr', heq, hsl, hlg⟩ := topicRecordWF_elim _ h
  rw [Json.obj.injEq] at heq
  subst heq
  cases sink
  · exact hsl
  · exact hlg

theorem sinkList_eq (key t : String) (kvs ts : List (String × Json))
    (h : lookupKey kvs "topics" = some (.obj ts)) :
    sinkList key t (.obj kvs) =
      match lookupKey ts t with
      | some (.obj tr) =>
        (match lookupKey tr key with
         | some (.arr xs) => xs
         | _ => [])
      | _ => [] := by
  simp [sinkList, h]

theorem recordFields_WF (ts : List (String × Json)) (t : String)
    (hAll : ∀ p ∈ ts, topicRecordWF p.2 = true) :
    topicRecordWF (.obj (recordFields ts t)) = true := by
  unfold recordFields
  cases hts : lookupKey ts t with
  | none => rfl
  | some tst =>
    have hWF := hAll _ (lookupKey_mem _ _ _ hts)
    cases tst <;> simp [topicRecordWF] at hWF ⊢
    exact hWF

/-- The ledger list the marking code reads, expressed through
`recordFields`. -/
theorem sinkList_recordFields (sink : Sink) (t : String)
    (kvs ts : List (String × Json))
    (h : lookupKey kvs "topics" = some (.obj ts))
    (hAll : ∀ p ∈ ts, topicRecordWF p.2 = true) :
    sinkList sink.key t (.obj kvs) =
      match lookupKey (recordFields ts t) sink.key with
      | some (.arr xs) => xs
      | _ => [] := by
  rw [sinkList_eq _ _ _ _ h]
  unfold recordFields
  cases hts : lookupKey ts t with
  | none => cases sink <;> rfl
  | some tst =>
    have hWF := hAll _ (lookupKey_mem _ _ _ hts)
    cases tst <;> simp [topicRecordWF] at hWF ⊢

/-- Exact result of marking on a well-shaped state: a no-op when the guid is
already recorded, otherwise the state with the guid appended to the ledger
of the (possibly freshly created) record of topic `t`. -/
theorem mark_topic_delivered_eq (sink : Sink) (t g : String)
    (kvs ts : List (String × Json))
    (h : lookupKey kvs "topics" = some (.obj ts))
    (hAll : ∀ p ∈ ts, topicRecordWF p.2 = true) :
    (topicFlag sink.key t g (.obj kvs) = true →
      mark_topic_delivered sink.key t g (.obj kvs) = .ok (.obj kvs)) ∧
    (topicFlag sink.key t g (.obj kvs) = false →
      mark_topic_delivered sink.key t g (.obj kvs) =
        .ok (.obj (setKey kvs "topics" (.obj (setKey ts t
          (.obj (setKey (recordFields ts t) sink.key
            (.arr (sinkList sink.key t (.obj kvs) ++ [.str g]))))))))) := by
  have hsl := sinkList_recordFields sink t kvs ts h hAll
  unfold mark_topic_delivered
  rw [getOrCreate_eq t kvs ts h]
  cases hts : lookupKey ts t with
  | none =>
    have hrf : recordFields ts t = [("slack_sent", .arr []), ("sheets_logged", .arr [])] := by
      unfold recordFields
      rw [hts]
    have hempty : sinkList sink.key t (.obj kvs) = [] := by
      rw [hsl, hrf]
      cases sink <;> rfl
    constructor
    · intro hflag
      rw [topicFlag, hempty] at hflag
      simp at hflag
    · intro _
      rw [hempty, hrf]
      cases sink <;>
        simp [andThen, pyContains, pyGetItem, pySetItem, pyAppend,
          writeTopicRecord, emptyTopicRecord, lookupKey, setKey, h,
          lookupKey_setKey_self, setKey_setKey, Sink.key]
  | some tst =>
    have hWF : topicRecordWF tst = true := hAll _ (lookupKey_mem _ _ _ hts)
    obtain ⟨tr, rfl, _, _⟩ := topicRecordWF_elim tst hWF
    have hrf : recordFields ts t = tr := by
      unfold recordFields
      rw [hts]
    rcases topicRecordWF_key sink tr hWF with hk | ⟨xs, hk⟩
    · have hempty : sinkList sink.key t (.obj kvs) = [] := by
        rw [hsl, hrf, hk]
      constructor
      · intro hflag
        rw [topicFlag, hempty] at hflag
        simp at hflag
      · intro _
        rw [hempty, hrf]
        simp [andThen, pyContains, pyGetItem, pySetItem, pyAppend,
          writeTopicRecord, h, hk, lookupKey_setKey_self, setKey_setKey]
    · have hxs : sinkList sink.key t (.obj kvs) = xs := by
        rw [hsl, hrf, hk]
      constructor
      · intro hflag
        rw [topicFlag, hxs] at hflag
        simp [andThen, pyContains, pyGetItem, pySetItem, pyAppend,
          writeTopicRecord, h, hk, hflag,
          setKey_self_of_lookup ts t (.obj tr) hts,
          setKey_self_of_lookup kvs "topics" (.obj ts) h]
      · intro hflag
        rw [topicFlag, hxs] at hflag
        rw [hxs, hrf]
        simp [andThen, pyContains, pyGetItem, pySetItem, pyAppend,
          writeTopicRecord, h, hk, hflag, lookupKey_setKey_self, setKey_setKey]

theorem sink_key_inj (s s' : Sink) : s.key = s'.key ↔ s = s' := by
  cases s <;> cases s' <;> simp [Sink.key]

theorem topicRecordWF_setKey (sink : Sink) (tr : List (String × Json))
    (hWF : topicRecordWF (.obj tr) = true) (L : List Json) :
    topicRecordWF (.obj (setKey tr sink.key (.arr L))) = true := by
  rcases topicRecordWF_key Sink.notify tr hWF with h1 | ⟨xs1, h1⟩ <;>
    rcases topicRecordWF_key Sink.log tr hWF with h2 | ⟨xs2, h2⟩ <;>
    cases sink <;>
    simp only [Sink.key] at h1 h2 ⊢ <;>
    simp [topicRecordWF, lookupKey_setKey_self,
      lookupKey_setKey_ne _ _ _ _ (by decide : ("sheets_logged" : String) ≠ "slack_sent"),
      lookupKey_setKey_ne _ _ _ _ (by decide : ("slack_sent" : String) ≠ "sheets_logged"),
      h1, h2]

/-- Ledger lists of the state produced by a fresh append: only the marked
sink's ledger of the marked topic changes, by appending the guid. -/
theorem sinkList_after_append (sink sink' : Sink) (t t' g : String)
    (kvs ts : List (String × Json))
    (h : lookupKey kvs "topics" = some (.obj ts))
    (hAll : ∀ p ∈ ts, topicRecordWF p.2 = true) :
    sinkList sink'.key t'
      (.obj (setKey kvs "topics" (.obj (setKey ts t
        (.obj (setKey (recordFields ts t) sink.key
          (.arr (sinkList sink.key t (.obj kvs) ++ [.str g])))))))) =
      (if sink' = sink ∧ t' = t then
        sinkList sink.key t (.obj kvs) ++ [.str g]
      else sinkList sink'.key t' (.obj kvs)) := by
  rw [sinkList_eq _ _ _ _ (lookupKey_setKey_self kvs "topics" _)]
  by_cases htt : t' = t
  · subst htt
    rw [lookupKey_setKey_self]
    by_cases hss : sink' = sink
    · subst hss
      simp [lookupKey_setKey_self]
    · have hkey : sink'.key ≠ sink.key := fun hh => hss ((sink_key_inj _ _).mp hh)
      have hrw := sinkList_recordFields sink' t' kvs ts h hAll
      simp [hss, hrw, lookupKey_setKey_ne _ _ _ _ hkey]
  · rw [lookupKey_setKey_ne _ _ _ _ htt]
    rw [sinkList_eq sink'.key t' kvs ts h]
    simp [htt]

/-- Full behavioural characterisation of marking on a well-shaped state: it
succeeds, preserves the shape, flips exactly the marked flag, leaves a
no-duplicate append in the marked ledger, and is the identity when the guid
was already recorded. -/
theorem mark_char (sink : Sink) (t g : String)
    (kvs ts : List (String × Json))
    (h : lookupKey kvs "topics" = some (.obj ts))
    (hAll : ∀ p ∈ ts, topicRecordWF p.2 = true) :
    ∃ kvs1 ts1,
      mark_topic_delivered sink.key t g (.obj kvs) = .ok (.obj kvs1) ∧
      lookupKey kvs1 "topics" = some (.obj ts1) ∧
      (∀ p ∈ ts1, topicRecordWF p.2 = true) ∧
      (∀ (sink' : Sink) (t' g' : String),
        topicFlag sink'.key t' g' (.obj kvs1) =
          (topicFlag sink'.key t' g' (.obj kvs) ||
            (decide (sink' = sink) && decide (t' = t) && decide (g' = g)))) ∧
      (topicFlag sink.key t g (.obj kvs) = true → kvs1 = kvs) ∧
      ((sinkList sink.key t (.obj kvs1)).countP (jsonStrEq g) =
        (sinkList sink.key t (.obj kvs)).countP (jsonStrEq g) +
          (if topicFlag sink.key t g (.obj kvs) then 0 else 1)) := by
  obtain ⟨hmarkT, hmarkF⟩ := mark_topic_delivered_eq sink t g kvs ts h hAll
  cases hflag : topicFlag sink.key t g (.obj kvs) with
  | true =>
    refine ⟨kvs, ts, hmarkT hflag, h, hAll, ?_, fun _ => rfl, by simp⟩
    intro sink' t' g'
    by_cases h1 : sink' = sink
    · by_cases h2 : t' = t
      · by_cases h3 : g' = g
        · subst h1; subst h2; subst h3
          simp [hflag]
        · simp [h1, h2, h3]
      · simp [h1, h2]
    · simp [h1]
  | false =>
    refine ⟨setKey kvs "topics" (.obj (setKey ts t
        (.obj (setKey (recordFields ts t) sink.key
          (.arr (sinkList sink.key t (.obj kvs) ++ [.str g])))))),
      setKey ts t (.obj (setKey (recordFields ts t) sink.key
          (.arr (sinkList sink.key t (.obj kvs) ++ [.str g])))),
      hmarkF hflag, lookupKey_setKey_self _ _ _, ?_, ?_, ?_, ?_⟩
    · intro p hp
      rcases mem_setKey _ _ _ _ hp with hmem | heq
      · exact hAll _ hmem
      · rw [heq]
        exact topicRecordWF_setKey sink _ (recordFields_WF ts t hAll) _
    · intro sink' t' g'
      rw [topicFlag, sinkList_after_append sink sink' t t' g kvs ts h hAll]
      by_cases h1 : sink' = sink
      · by_cases h2 : t' = t
        · subst h1; subst h2
          simp [topicFlag, jsonStrEq, List.any_append]
        · simp [h1, h2, topicFlag]
      · simp [h1, topicFlag]
    · intro hcontra
      exact Bool.noConfusion hcontra
    · rw [sinkList_after_append sink sink t t g kvs ts h hAll]
      simp [List.countP_append, jsonStrEq]

/-- Exact result of the delivered query on a well-shaped state: it returns
the recorded flag, leaving the state untouched when the topic already has a
record and inserting a fresh empty record otherwise. -/
theorem is_topic_delivered_eq (sink : Sink) (t g : String)
    (kvs ts : List (String × Json))
    (h : lookupKey kvs "topics" = some (.obj ts))
    (hAll : ∀ p ∈ ts, topicRecordWF p.2 = true) :
    is_topic_delivered sink.key t g (.obj kvs) =
      .ok (topicFlag sink.key t g (.obj kvs),
        (match lookupKey ts t with
         | some _ => .obj kvs
         | none =>
           .obj (setKey kvs "topics" (.obj (setKey ts t emptyTopicRecord))))) := by
  unfold is_topic_delivered
  rw [getOrCreate_eq t kvs ts h]
  cases hts : lookupKey ts t with
  | none =>
    have hempty : sinkList sink.key t (.obj kvs) = [] := by
      rw [sinkList_eq _ _ _ _ h, hts]
    cases sink <;>
      simp only [Sink.key] at hempty ⊢ <;>
      simp [andThen, pyGet, pyContains, emptyTopicRecord, topicFlag, hempty,
        Sink.key, lookupKey]
  | some tst =>
    have hWF : topicRecordWF tst = true := hAll _ (lookupKey_mem _ _ _ hts)
    obtain ⟨tr, rfl, _, _⟩ := topicRecordWF_elim tst hWF
    have hrf : recordFields ts t = tr := by
      unfold recordFields
      rw [hts]
    have hsl := sinkList_recordFields sink t kvs ts h hAll
    rw [hrf] at hsl
    rcases topicRecordWF_key sink tr hWF with hk | ⟨xs, hk⟩ <;>
      rw [hk] at hsl <;>
      simp [andThen, pyGet, pyContains, topicFlag, hsl, hk]

/-- Inserting a fresh empty record for an absent topic keeps the state
well-shaped and changes no delivered flag. -/
theorem insert_empty_preserves (t : String) (kvs ts : List (String × Json))
    (h : lookupKey kvs "topics" = some (.obj ts))
    (hAll : ∀ p ∈ ts, topicRecordWF p.2 = true)
    (hts : lookupKey ts t = none) :
    lookupKey (setKey kvs "topics" (.obj (setKey ts t emptyTopicRecord)))
        "topics" = some (.obj (setKey ts t emptyTopicRecord)) ∧
    (∀ p ∈ setKey ts t emptyTopicRecord, topicRecordWF p.2 = true) ∧
    (∀ (sink' : Sink) (t' g' : String),
      topicFlag sink'.key t' g'
          (.obj (setKey kvs "topics" (.obj (setKey ts t emptyTopicRecord)))) =
        topicFlag sink'.key t' g' (.obj kvs)) := by
  refine ⟨lookupKey_setKey_self _ _ _, ?_, ?_⟩
  · intro p hp
    rcases mem_setKey _ _ _ _ hp with hmem | heq
    · exact hAll _ hmem
    · rw [heq]
      exact topicRecordWF_empty
  · intro sink' t' g'
    rw [topicFlag, topicFlag,
      sinkList_eq _ _ _ _ (lookupKey_setKey_self kvs "topics" _),
      sinkList_eq _ _ _ _ h]
    by_cases htt : t' = t
    · subst htt
      rw [lookupKey_setKey_self, hts]
      cases sink' <;> simp [emptyTopicRecord, Sink.key, lookupKey]
    · rw [lookupKey_setKey_ne _ _ _ _ htt]

/-- The delivered query, weakened to what the router induction needs: the
returned state is well-shaped and has the same flags. -/
theorem is_char (sink : Sink) (t g : String) (kvs ts : List (String × Json))
    (h : lookupKey kvs "topics" = some (.obj ts))
    (hAll : ∀ p ∈ ts, topicRecordWF p.2 = true) :
    ∃ kvs1 ts1,
      is_topic_delivered sink.key t g (.obj kvs) =
        .ok (topicFlag sink.key t g (.obj kvs), .obj kvs1) ∧
      lookupKey kvs1 "topics" = some (.obj ts1) ∧
      (∀ p ∈ ts1, topicRecordWF p.2 = true) ∧
      (∀ (sink' : Sink) (t' g' : String),
        topicFlag sink'.key t' g' (.obj kvs1) =
          topicFlag sink'.key t' g' (.obj kvs)) := by
  have heq := is_topic_delivered_eq sink t g kvs ts h hAll
  cases hts : lookupKey ts t with
  | some tst =>
    rw [hts] at heq
    exact ⟨kvs, ts, heq, h, hAll, fun _ _ _ => rfl⟩
  | none =>
    rw [hts] at heq
    obtain ⟨h1, h2, h3⟩ := insert_empty_preserves t kvs ts h hAll hts
    exact ⟨_, _, heq, h1, h2, h3⟩

/-- The get-or-create step, weakened to what the router induction needs. -/
theorem getOrCreate_char (t : String) (kvs ts : List (String × Json))
    (h : lookupKey kvs "topics" = some (.obj ts))
    (hAll : ∀ p ∈ ts, topicRecordWF p.2 = true) :
    ∃ tst kvs1 ts1,
      _get_or_create_topic_state t (.obj kvs) = .ok (tst, .obj kvs1) ∧
      lookupKey kvs1 "topics" = some (.obj ts1) ∧
      (∀ p ∈ ts1, topicRecordWF p.2 = true) ∧
      (∀ (sink' : Sink) (t' g' : String),
        topicFlag sink'.key t' g' (.obj kvs1) =
          topicFlag sink'.key t' g' (.obj kvs)) := by
  have heq := getOrCreate_eq t kvs ts h
  cases hts : lookupKey ts t with
  | some tst =>
    rw [hts] at heq
    exact ⟨tst, kvs, ts, heq, h, hAll, fun _ _ _ => rfl⟩
  | none =>
    rw [hts] at heq
    obtain ⟨h1, h2, h3⟩ := insert_empty_preserves t kvs ts h hAll hts
    exact ⟨_, _, _, heq, h1, h2, h3⟩

theorem markDelivered_eq_mark (sink : Sink) (t g : String) (st : Json) :
    markDelivered sink t g st = mark_topic_delivered sink.key t g st := by
  cases sink <;> rfl

theorem isDelivered_eq_is (sink : Sink) (t g : String) (st : Json) :
    isDelivered sink t g st = is_topic_delivered sink.key t g st := by
  cases sink <;> rfl

theorem flag_true_topic_present (key t g : String)
    (kvs ts : List (String × Json))
    (h : lookupKey kvs "topics" = some (.obj ts))
    (hflag : topicFlag key t g (.obj kvs) = true) :
    ∃ tst, lookupKey ts t = some tst := by
  cases hts : lookupKey ts t with
  | some tst => exact ⟨tst, rfl⟩
  | none =>
    rw [topicFlag, sinkList_eq _ _ _ _ h, hts] at hflag
    simp at hflag

/-! ## Claim C10: the delivered queries are effectful -/

/-- C10: on a state whose topics map lacks topic `t`, both delivered queries
return false and hand back the state with a fresh empty record
`slack_sent: [], sheets_logged: []` inserted for `t`, and that insertion
changes no answer of any later delivered query. -/
theorem delivered_query_inserts_topic_record (t g : String)
    (kvs ts : List (String × Json))
    (h : lookupKey kvs "topics" = some (.obj ts))
    (hAll : ∀ p ∈ ts, topicRecordWF p.2 = true)
    (hAbsent : lookupKey ts t = none) :
    is_topic_slack_sent t g (.obj kvs) =
      .ok (false,
        .obj (setKey kvs "topics" (.obj (setKey ts t emptyTopicRecord)))) ∧
    is_topic_sheets_logged t g (.obj kvs) =
      .ok (false,
        .obj (setKey kvs "topics" (.obj (setKey ts t emptyTopicRecord)))) ∧
    lookupKey (setKey ts t emptyTopicRecord) t = some emptyTopicRecord ∧
    (∀ (sink' : Sink) (t' g' : String),
      topicFlag sink'.key t' g'
          (.obj (setKey kvs "topics" (.obj (setKey ts t emptyTopicRecord)))) =
        topicFlag sink'.key t' g' (.obj kvs)) := by
  have hflagN : topicFlag Sink.notify.key t g (.obj kvs) = false := by
    simp [topicFlag, sinkList_eq _ _ _ _ h, hAbsent]
  have hflagL : topicFlag Sink.log.key t g (.obj kvs) = false := by
    simp [topicFlag, sinkList_eq _ _ _ _ h, hAbsent]
  have hN := is_topic_delivered_eq Sink.notify t g kvs ts h hAll
  have hL := is_topic_delivered_eq Sink.log t g kvs ts h hAll
  simp only [hAbsent, hflagN] at hN
  simp only [hAbsent, hflagL] at hL
  obtain ⟨_, _, hpres⟩ := insert_empty_preserves t kvs ts h hAll hAbsent
  exact ⟨hN, hL, lookupKey_setKey_self _ _ _, hpres⟩

/-- C10 witness at a concrete state with an empty topics map. -/
theorem delivered_query_inserts_witness :
    lookupKey [("topics", Json.obj [])] "topics" = some (.obj []) ∧
    (∀ p ∈ ([] : List (String × Json)), topicRecordWF p.2 = true) ∧
    lookupKey ([] : List (String × Json)) "t" = none ∧
    is_topic_slack_sent "t" "g" (.obj [("topics", .obj [])]) =
      .ok (false, .obj [("topics", .obj [("t", emptyTopicRecord)])]) ∧
    is_topic_sheets_logged "t" "g" (.obj [("topics", .obj [])]) =
      .ok (false, .obj [("topics", .obj [("t", emptyTopicRecord)])]) ∧
    (∀ (sink' : Sink) (t' g' : String),
      topicFlag sink'.key t' g' (.obj [("topics", .obj [("t", emptyTopicRecord)])]) =
        topicFlag sink'.key t' g' (.obj [("topics", .obj [])])) := by
  obtain ⟨h1, h2, _, h4⟩ :=
    delivered_query_inserts_topic_record "t" "g" [("topics", .obj [])] []
      rfl (by simp) rfl
  refine ⟨rfl, by simp, rfl, ?_, ?_, ?_⟩
  · simpa [setKey] using h1
  · simpa [setKey] using h2
  · simpa [setKey] using h4

/-! ## Claim C4: idempotence of marking -/

/-- C4 counterexample: in a state whose per-topic ledger already holds the
guid twice, marking returns the state unchanged, so the ledger still holds
the guid twice — not exactly once as claimed for every state value. -/
theorem mark_exactly_once_claim_false : ¬ MarkExactlyOnceClaim := by
  intro h
  have hd := (h .notify "t" "g" dupState dupState rfl).2.2
  exact absurd hd (by decide)

/-- C4 (amended): on a well-shaped state whose per-topic ledger does not
already hold the guid more than once, marking is idempotent: a second mark
returns exactly the state of the first, the delivered query then reports
true, and the ledger holds the guid exactly once — marking never appends a
duplicate. -/
theorem mark_delivered_idempotent (sink : Sink) (t g : String)
    (kvs ts : List (String × Json))
    (h : lookupKey kvs "topics" = some (.obj ts))
    (hAll : ∀ p ∈ ts, topicRecordWF p.2 = true)
    (hOnce : (sinkList sink.key t (.obj kvs)).countP (jsonStrEq g) ≤ 1) :
    ∃ st1, markDelivered sink t g (.obj kvs) = .ok st1 ∧
      markDelivered sink t g st1 = .ok st1 ∧
      isDelivered sink t g st1 = .ok (true, st1) ∧
      (sinkList sink.key t st1).countP (jsonStrEq g) = 1 := by
  obtain ⟨kvs1, ts1, hmark, h1, hAll1, hflags, _, hcount⟩ :=
    mark_char sink t g kvs ts h hAll
  have hflag1 : topicFlag sink.key t g (.obj kvs1) = true := by
    rw [hflags]
    simp
  refine ⟨.obj kvs1, by rw [markDelivered_eq_mark]; exact hmark, ?_, ?_, ?_⟩
  · obtain ⟨kvs2, ts2, hmark2, _, _, _, hnoop2, _⟩ :=
      mark_char sink t g kvs1 ts1 h1 hAll1
    rw [markDelivered_eq_mark, hmark2, hnoop2 hflag1]
  · obtain ⟨tst, hts1⟩ := flag_true_topic_present sink.key t g kvs1 ts1 h1 hflag1
    have heq := is_topic_delivered_eq sink t g kvs1 ts1 h1 hAll1
    simp only [hts1, hflag1] at heq
    rw [isDelivered_eq_is, heq]
  · rw [hcount]
    by_cases hflag : topicFlag sink.key t g (.obj kvs) = true
    · have hpos : 0 < (sinkList sink.key t (.obj kvs)).countP (jsonStrEq g) := by
        rw [List.countP_pos_iff]
        rw [topicFlag, List.any_eq_true] at hflag
        exact hflag
      simp only [hflag, if_true]
      omega
    · have hzero : (sinkList sink.key t (.obj kvs)).countP (jsonStrEq g) = 0 := by
        rw [List.countP_eq_zero]
        intro a ha
        rw [topicFlag] at hflag
        intro hpa
        exact hflag (List.any_eq_true.mpr ⟨a, ha, hpa⟩)
      simp [hflag, hzero]

/-- One guarded mark attempt, the branch pattern the router uses for both
sinks: mark when `doMark`, otherwise leave the state alone. -/
theorem guardedMark_char (sink : Sink) (tid g : String) (doMark : Bool)
    (kvs ts : List (String × Json))
    (h : lookupKey kvs "topics" = some (.obj ts))
    (hAll : ∀ p ∈ ts, topicRecordWF p.2 = true) :
    ∃ kvs1 ts1,
      (if doMark then mark_topic_delivered sink.key tid g (.obj kvs)
        else .ok (.obj kvs)) = .ok (.obj kvs1) ∧
      lookupKey kvs1 "topics" = some (.obj ts1) ∧
      (∀ p ∈ ts1, topicRecordWF p.2 = true) ∧
      (∀ (sink' : Sink) (t' g' : String),
        topicFlag sink'.key t' g' (.obj kvs1) =
          (topicFlag sink'.key t' g' (.obj kvs) ||
            (doMark && decide (sink' = sink) && decide (t' = tid) &&
              decide (g' = g)))) := by
  cases doMark with
  | false => exact ⟨kvs, ts, rfl, h, hAll, by simp⟩
  | true =>
    obtain ⟨kvs1, ts1, hmark, h1, hAll1, hflags, _, _⟩ :=
      mark_char sink tid g kvs ts h hAll
    refine ⟨kvs1, ts1, by simpa using hmark, h1, hAll1, ?_⟩
    intro sink' t' g'
    rw [hflags sink' t' g']
    simp

theorem if_guard_collapse {α : Type} (c1 c2 : Bool) (m : Except PyErr α)
    (d : α) :
    (if c1 then (if c2 then m else .ok d) else .ok d) =
      (if c1 && c2 then m else .ok d) := by
  cases c1 <;> cases c2 <;> rfl

theorem is_topic_sheets_logged_eq (t g : String) (st : Json) :
    is_topic_sheets_logged t g st = is_topic_delivered Sink.log.key t g st := rfl

theorem is_topic_slack_sent_eq (t g : String) (st : Json) :
    is_topic_slack_sent t g st = is_topic_delivered Sink.notify.key t g st := rfl

theorem mark_topic_sheets_logged_eq (t g : String) (st : Json) :
    mark_topic_sheets_logged t g st =
      mark_topic_delivered Sink.log.key t g st := rfl

theorem mark_topic_slack_sent_eq (t g : String) (st : Json) :
    mark_topic_slack_sent t g st =
      mark_topic_delivered Sink.notify.key t g st := rfl

/-- How processing one item changes the delivered flags: exactly the triples
its `deliveryCond` allows become (or stay) set; everything else is
untouched. -/
theorem processItem_char (env : SinkEnv) (t : Topic) (item : Item)
    (kvs ts : List (String × Json))
    (h : lookupKey kvs "topics" = some (.obj ts))
    (hAll : ∀ p ∈ ts, topicRecordWF p.2 = true)
    (hItem : itemComplete item = true) :
    ∃ kvs1 ts1,
      processItem env t item (.obj kvs) = .ok (.obj kvs1) ∧
      lookupKey kvs1 "topics" = some (.obj ts1) ∧
      (∀ p ∈ ts1, topicRecordWF p.2 = true) ∧
      (∀ (sink : Sink) (tid g : String),
        topicFlag sink.key tid g (.obj kvs1) =
          (topicFlag sink.key tid g (.obj kvs) ||
            deliveryCond env t item sink tid g)) := by
  rw [itemComplete, Bool.and_eq_true] at hItem
  obtain ⟨hscore, htitle⟩ := hItem
  cases ha : item.analysis with
  | none =>
    rw [ha] at hscore
    simp at hscore
  | some a =>
  rw [ha] at hscore
  rw [Option.isSome_iff_exists] at hscore htitle
  obtain ⟨sc, hsc⟩ := hscore
  obtain ⟨ttl, ht⟩ := htitle
  have hiscore : itemScore item = sc := by
    simp [itemScore, ha, hsc]
  unfold processItem
  simp only [ha, hsc, ht, andThen_ok]
  obtain ⟨kvsA, tsA, hisA, hA, hAllA, hflA⟩ :=
    is_char Sink.log t.id item.guid kvs ts h hAll
  simp only [is_topic_sheets_logged_eq, hisA, andThen_ok, if_guard_collapse]
  obtain ⟨kvsB, tsB, hmB, hB, hAllB, hflB⟩ :=
    guardedMark_char Sink.log t.id item.guid
      ((!topicFlag Sink.log.key t.id item.guid (.obj kvs)) &&
        append_item_to_sheet (env.sheetAppend t.id item.guid))
      kvsA tsA hA hAllA
  simp only [mark_topic_sheets_logged_eq, hmB, andThen_ok]
  -- flags after the log-sink step, relative to the initial state
  have hflB0 : ∀ (sink' : Sink) (t' g' : String),
      topicFlag sink'.key t' g' (.obj kvsB) =
        (topicFlag sink'.key t' g' (.obj kvs) ||
          ((!topicFlag Sink.log.key t.id item.guid (.obj kvs)) &&
            append_item_to_sheet (env.sheetAppend t.id item.guid) &&
            decide (sink' = Sink.log) && decide (t' = t.id) &&
            decide (g' = item.guid))) := by
    intro sink' t' g'
    rw [hflB sink' t' g', hflA sink' t' g']
  by_cases hweb : webhookConfigured t
  · by_cases hthr : t.score_threshold.getD 5 ≤ sc
    · -- the chat sink is attempted
      rw [hweb, if_pos rfl, if_pos hthr]
      obtain ⟨kvsC, tsC, hisC, hC, hAllC, hflC⟩ :=
        is_char Sink.notify t.id item.guid kvsB tsB hB hAllB
      simp only [is_topic_slack_sent_eq, hisC, andThen_ok, if_guard_collapse]
      obtain ⟨kvsD, tsD, hmD, hD, hAllD, hflD⟩ :=
        guardedMark_char Sink.notify t.id item.guid
          ((!topicFlag Sink.notify.key t.id item.guid (.obj kvsB)) &&
            send_slack_notification (env.slackPost t.id item.guid))
          kvsC tsC hC hAllC
      simp only [mark_topic_slack_sent_eq, hmD]
      refine ⟨kvsD, tsD, rfl, hD, hAllD, ?_⟩
      intro sink tid g
      rw [hflD sink tid g, hflC sink tid g, hflB0 sink tid g]
      by_cases htid : tid = t.id
      · by_cases hg : g = item.guid
        · subst htid
          subst hg
          have hsentB : topicFlag Sink.notify.key t.id item.guid (.obj kvsB) =
              topicFlag Sink.notify.key t.id item.guid (.obj kvs) := by
            rw [hflB0 Sink.notify t.id item.guid]
            simp
          rw [hsentB]
          cases sink <;>
            cases hf : topicFlag Sink.notify.key t.id item.guid (.obj kvs) <;>
            cases hf2 : topicFlag Sink.log.key t.id item.guid (.obj kvs) <;>
            simp [deliveryCond, sinkSuccess, hweb, hiscore, hthr, hf, hf2,
              Sink.key] at hsentB ⊢
        · simp [hg, deliveryCond]
      · simp [htid, deliveryCond]
    · -- score below threshold: no chat attempt
      rw [hweb, if_pos rfl, if_neg hthr]
      refine ⟨kvsB, tsB, rfl, hB, hAllB, ?_⟩
      intro sink tid g
      rw [hflB0 sink tid g]
      by_cases htid : tid = t.id
      · by_cases hg : g = item.guid
        · subst htid
          subst hg
          cases sink <;>
            cases hf2 : topicFlag Sink.log.key t.id item.guid (.obj kvs) <;>
            simp [deliveryCond, sinkSuccess, hiscore, hthr, hf2]
        · simp [hg, deliveryCond]
      · simp [htid, deliveryCond]
  · -- no webhook configured: no chat attempt
    rw [Bool.not_eq_true] at hweb
    rw [hweb, if_neg (by simp)]
    refine ⟨kvsB, tsB, rfl, hB, hAllB, ?_⟩
    intro sink tid g
    rw [hflB0 sink tid g]
    by_cases htid : tid = t.id
    · by_cases hg : g = item.guid
      · subst htid
        subst hg
        cases sink <;>
          cases hf2 : topicFlag Sink.log.key t.id item.guid (.obj kvs) <;>
          simp [deliveryCond, sinkSuccess, hweb, hf2]
      · simp [hg, deliveryCond]
    · simp [htid, deliveryCond]

theorem mem_filter_items (items : List Item) (t : Topic) (i : Item)
    (hi : i ∈ filter_items_by_topic items (some t)) : i ∈ items := by
  simp only [filter_items_by_topic] at hi
  by_cases he : items.isEmpty
  · simp [he] at hi
  · simp only [he, Bool.false_eq_true, if_false] at hi
    exact (List.mem_filter.mp hi).1

/-- Flags after the item loop: the per-item delivery conditions accumulate
by disjunction over the processed items. -/
theorem runItems_char (env : SinkEnv) (t : Topic) (items : List Item)
    (kvs ts : List (String × Json))
    (h : lookupKey kvs "topics" = some (.obj ts))
    (hAll : ∀ p ∈ ts, topicRecordWF p.2 = true)
    (hItems : ∀ i ∈ items, itemComplete i = true) :
    ∃ kvs1 ts1,
      runItems env t items (.obj kvs) = .ok (.obj kvs1) ∧
      lookupKey kvs1 "topics" = some (.obj ts1) ∧
      (∀ p ∈ ts1, topicRecordWF p.2 = true) ∧
      (∀ (sink : Sink) (tid g : String),
        topicFlag sink.key tid g (.obj kvs1) =
          (topicFlag sink.key tid g (.obj kvs) ||
            items.any fun item => deliveryCond env t item sink tid g)) := by
  revert hItems
  induction items generalizing kvs ts with
  | nil =>
    intro _
    exact ⟨kvs, ts, rfl, h, hAll, by simp⟩
  | cons item rest ih =>
    intro hItems
    obtain ⟨kvsA, tsA, hpi, hA, hAllA, hflA⟩ :=
      processItem_char env t item kvs ts h hAll (hItems item (by simp))
    obtain ⟨kvs1, ts1, hrun, h1, hAll1, hfl1⟩ :=
      ih kvsA tsA hA hAllA (fun i hi => hItems i (List.mem_cons_of_mem _ hi))
    refine ⟨kvs1, ts1, ?_, h1, hAll1, ?_⟩
    · rw [runItems, hpi, andThen_ok, hrun]
    · intro sink tid g
      rw [hfl1 sink tid g, hflA sink tid g]
      simp [Bool.or_assoc]

/-- Flags after one topic of the router: nothing changes when nothing
matches or the worksheet lookup raises; otherwise the matching items'
conditions accumulate. -/
theorem processTopic_char (env : SinkEnv) (items : List Item) (t : Topic)
    (kvs ts : List (String × Json))
    (h : lookupKey kvs "topics" = some (.obj ts))
    (hAll : ∀ p ∈ ts, topicRecordWF p.2 = true)
    (hItems : ∀ i ∈ items, itemComplete i = true) :
    ∃ kvs1 ts1,
      processTopic env items (.obj kvs) t = .ok (.obj kvs1) ∧
      lookupKey kvs1 "topics" = some (.obj ts1) ∧
      (∀ p ∈ ts1, topicRecordWF p.2 = true) ∧
      (∀ (sink : Sink) (tid g : String),
        topicFlag sink.key tid g (.obj kvs1) =
          (topicFlag sink.key tid g (.obj kvs) ||
            (wsOk env t &&
              (filter_items_by_topic items (some t)).any fun item =>
                deliveryCond env t item sink tid g))) := by
  obtain ⟨tst, kvsA, tsA, hgo, hA, hAllA, hflA⟩ :=
    getOrCreate_char t.id kvs ts h hAll
  unfold processTopic
  rw [hgo, andThen_ok]
  dsimp only
  by_cases hm : (filter_items_by_topic items (some t)).isEmpty
  · rw [hm, if_pos rfl]
    refine ⟨kvsA, tsA, rfl, hA, hAllA, ?_⟩
    intro sink tid g
    rw [hflA sink tid g, List.isEmpty_iff.mp hm]
    simp
  · rw [Bool.not_eq_true] at hm
    rw [hm, if_neg (by simp)]
    cases hws : env.worksheet t.sheet_name with
    | error e =>
      refine ⟨kvsA, tsA, rfl, hA, hAllA, ?_⟩
      intro sink tid g
      rw [hflA sink tid g]
      have hw : wsOk env t = false := by
        simp [wsOk, hws]
      simp [hw]
    | ok u =>
      obtain ⟨kvs1, ts1, hrun, h1, hAll1, hfl1⟩ :=
        runItems_char env t (filter_items_by_topic items (some t)) kvsA tsA
          hA hAllA (fun i hi => hItems i (mem_filter_items items t i hi))
      refine ⟨kvs1, ts1, hrun, h1, hAll1, ?_⟩
      intro sink tid g
      rw [hfl1 sink tid g, hflA sink tid g]
      have hw : wsOk env t = true := by
        simp [wsOk, hws]
      simp [hw]

/-- Flags after the whole router pass: the per-topic conditions accumulate
by disjunction over the active topics. -/
theorem processTopics_char (env : SinkEnv) (items : List Item)
    (topics : List Topic) (kvs ts : List (String × Json))
    (h : lookupKey kvs "topics" = some (.obj ts))
    (hAll : ∀ p ∈ ts, topicRecordWF p.2 = true)
    (hItems : ∀ i ∈ items, itemComplete i = true) :
    ∃ kvs1 ts1,
      processTopics env items topics (.obj kvs) = .ok (.obj kvs1) ∧
      lookupKey kvs1 "topics" = some (.obj ts1) ∧
      (∀ p ∈ ts1, topicRecordWF p.2 = true) ∧
      (∀ (sink : Sink) (tid g : String),
        topicFlag sink.key tid g (.obj kvs1) =
          (topicFlag sink.key tid g (.obj kvs) ||
            topics.any fun t =>
              wsOk env t &&
                (filter_items_by_topic items (some t)).any fun item =>
                  deliveryCond env t item sink tid g)) := by
  induction topics generalizing kvs ts with
  | nil => exact ⟨kvs, ts, rfl, h, hAll, by simp⟩
  | cons t rest ih =>
    obtain ⟨kvsA, tsA, hpt, hA, hAllA, hflA⟩ :=
      processTopic_char env items t kvs ts h hAll hItems
    obtain ⟨kvs1, ts1, hrun, h1, hAll1, hfl1⟩ := ih kvsA tsA hA hAllA
    refine ⟨kvs1, ts1, ?_, h1, hAll1, ?_⟩
    · rw [processTopics, hpt, andThen_ok, hrun]
    · intro sink tid g
      rw [hfl1 sink tid g, hflA sink tid g]
      simp [Bool.or_assoc]

theorem list_any_congr {α : Type} (l : List α) (p q : α → Bool)
    (h : ∀ a ∈ l, p a = q a) : l.any p = l.any q := by
  induction l with
  | nil => rfl
  | cons a rest ih =>
    simp only [List.any_cons]
    rw [h a (by simp), ih fun b hb => h b (List.mem_cons_of_mem _ hb)]

/-! ## Claim C3: per-triple failure isolation in the router -/

/-- C3: run the router twice from the same well-shaped state over the same
batch and topics, against two worlds that differ in at most the delivery
outcome of the one triple (`sink₀`, `t₀`, `g₀`): both runs complete (no
delivery outcome ever aborts the iteration), every other (topic, sink, item)
triple ends with exactly the same delivered flag, and when the distinguished
delivery fails its guid is simply left unmarked. -/
theorem routing_failure_isolated (env env' : SinkEnv)
    (topics : List Topic) (items : List Item)
    (kvs ts : List (String × Json))
    (h : lookupKey kvs "topics" = some (.obj ts))
    (hAll : ∀ p ∈ ts, topicRecordWF p.2 = true)
    (hItems : ∀ i ∈ items, itemComplete i = true)
    (sink₀ : Sink) (t₀ g₀ : String)
    (hws : env'.worksheet = env.worksheet)
    (hsheet : ∀ tid g, ¬(sink₀ = Sink.log ∧ tid = t₀ ∧ g = g₀) →
      env'.sheetAppend tid g = env.sheetAppend tid g)
    (hslack : ∀ tid g, ¬(sink₀ = Sink.notify ∧ tid = t₀ ∧ g = g₀) →
      env'.slackPost tid g = env.slackPost tid g) :
    ∃ fin fin',
      processTopics env items topics (.obj kvs) = .ok fin ∧
      processTopics env' items topics (.obj kvs) = .ok fin' ∧
      (∀ (sink : Sink) (tid g : String),
        ¬(sink = sink₀ ∧ tid = t₀ ∧ g = g₀) →
          topicFlag sink.key tid g fin' = topicFlag sink.key tid g fin) ∧
      (sinkSuccess env' sink₀ t₀ g₀ = false →
        topicFlag sink₀.key t₀ g₀ fin' = topicFlag sink₀.key t₀ g₀ (.obj kvs)) := by
  obtain ⟨kvs1, ts1, hrun, h1, hAll1, hfl1⟩ :=
    processTopics_char env items topics kvs ts h hAll hItems
  obtain ⟨kvs1', ts1', hrun', h1', hAll1', hfl1'⟩ :=
    processTopics_char env' items topics kvs ts h hAll hItems
  refine ⟨.obj kvs1, .obj kvs1', hrun, hrun', ?_, ?_⟩
  · intro sink tid g hne
    rw [hfl1 sink tid g, hfl1' sink tid g]
    congr 1
    apply list_any_congr
    intro tp _
    have hwseq : wsOk env' tp = wsOk env tp := by
      rw [wsOk, wsOk, hws]
    rw [hwseq]
    congr 1
    apply list_any_congr
    intro item _
    rw [deliveryCond.eq_def, deliveryCond.eq_def]
    by_cases htid : tid = tp.id
    · by_cases hg : g = item.guid
      · cases sink
        · have heq : env'.slackPost tp.id item.guid = env.slackPost tp.id item.guid := by
            apply hslack
            intro ⟨hs0, ht0, hg0⟩
            exact hne ⟨hs0.symm, htid.trans ht0, hg.trans hg0⟩
          simp [sinkSuccess, heq]
        · have heq : env'.sheetAppend tp.id item.guid = env.sheetAppend tp.id item.guid := by
            apply hsheet
            intro ⟨hs0, ht0, hg0⟩
            exact hne ⟨hs0.symm, htid.trans ht0, hg.trans hg0⟩
          simp [sinkSuccess, heq]
      · simp [hg]
    · simp [htid]
  · intro hFail
    rw [hfl1' sink₀ t₀ g₀]
    have hany : (topics.any fun tp =>
        wsOk env' tp &&
          (filter_items_by_topic items (some tp)).any fun item =>
            deliveryCond env' tp item sink₀ t₀ g₀) = false := by
      rw [List.any_eq_false]
      intro tp _
      have hin : ((filter_items_by_topic items (some tp)).any fun item =>
          deliveryCond env' tp item sink₀ t₀ g₀) = false := by
        rw [List.any_eq_false]
        intro item _
        rw [deliveryCond.eq_def]
        by_cases htid : t₀ = tp.id
        · by_cases hg : g₀ = item.guid
          · rw [← htid, ← hg]
            cases sink₀ <;>
              simp only [sinkSuccess] at hFail <;>
              simp [sinkSuccess, hFail]
          · simp [hg]
        · simp [htid]
      simp [hin]
    rw [hany]
    simp

/-- C3 witness: a concrete two-run comparison in which the sheet append of
the only matching (topic, item) pair raises in the second world; the item
does match the topic, so the delivery really is attempted. -/
theorem routing_failure_isolated_witness :
    lookupKey [("topics", Json.obj [])] "topics" = some (.obj []) ∧
    (∀ p ∈ ([] : List (String × Json)), topicRecordWF p.2 = true) ∧
    (∀ i ∈ [wItem], itemComplete i = true) ∧
    envSheetFails.worksheet = envAllOk.worksheet ∧
    sinkSuccess envSheetFails Sink.log "t1" "G1" = false ∧
    wItem ∈ filter_items_by_topic [wItem] (some wTopic) ∧
    (∃ fin fin',
      processTopics envAllOk [wItem] [wTopic]
        (.obj [("topics", .obj [])]) = .ok fin ∧
      processTopics envSheetFails [wItem] [wTopic]
        (.obj [("topics", .obj [])]) = .ok fin' ∧
      (∀ (sink : Sink) (tid g : String),
        ¬(sink = Sink.log ∧ tid = "t1" ∧ g = "G1") →
          topicFlag sink.key tid g fin' = topicFlag sink.key tid g fin) ∧
      (sinkSuccess envSheetFails Sink.log "t1" "G1" = false →
        topicFlag Sink.log.key "t1" "G1" fin' =
          topicFlag Sink.log.key "t1" "G1" (.obj [("topics", .obj [])]))) := by
  refine ⟨rfl, by simp, by decide, rfl, by decide, by decide, ?_⟩
  exact routing_failure_isolated envAllOk envSheetFails [wTopic] [wItem]
    [("topics", .obj [])] [] rfl (by simp) (by decide) Sink.log "t1" "G1" rfl
    (by
      intro tid g hne
      have hne2 : ¬(tid = "t1" ∧ g = "G1") := fun hh => hne ⟨rfl, hh.1, hh.2⟩
      simp only [envSheetFails, envAllOk]
      rw [if_neg hne2])
    (fun _ _ _ => rfl)

/-- C4 witness at a concrete well-shaped state with an empty ledger. -/
theorem mark_delivered_idempotent_witness :
    lookupKey [("topics", Json.obj [])] "topics" = some (.obj []) ∧
    (∀ p ∈ ([] : List (String × Json)), topicRecordWF p.2 = true) ∧
    (sinkList Sink.notify.key "t" (.obj [("topics", .obj [])])).countP
      (jsonStrEq "g") ≤ 1 ∧
    (∃ st1, markDelivered .notify "t" "g" (.obj [("topics", .obj [])]) = .ok st1 ∧
      markDelivered .notify "t" "g" st1 = .ok st1 ∧
      isDelivered .notify "t" "g" st1 = .ok (true, st1) ∧
      (sinkList Sink.notify.key "t" st1).countP (jsonStrEq "g") = 1) :=
  ⟨rfl, by simp, by decide,
    mark_delivered_idempotent .notify "t" "g" [("topics", .obj [])] []
      rfl (by simp) (by decide)⟩

end DefenseNews
